import Mathlib

/-!
A shallow embedding of the Monte Carlo tennis match simulator in
code/replication/referee2_replicate_mc_engine.py, together with
verification of its specification.

Modelling conventions:
- The Python global random source is modelled as an explicit stream of
  uniform draws, a `List ℚ`; every probabilistic decision pops one draw.
  Running out of draws is the error "draws exhausted" (the real generator
  is inexhaustible, so theorems are stated about runs that return `.ok`).
- Python floats are modelled as rationals; `x / y` raises ZeroDivisionError
  in Python, modelled by `pyDiv` returning the error "division by zero".
- The unbounded `while` loops are modelled with an explicit fuel counter;
  exhausting fuel is the error "out of fuel", and theorems quantify over
  all runs that return `.ok`.
- Each loop additionally returns a trace of the iteration-level decisions
  (point winners, servers, per-set policies) so that sequence-level
  properties of the loop can be stated; the trace is computed by the same
  code path and does not alter the simulated results.
- `scipy.stats.norm.ppf(0.975)` and the floating-point square root are
  external library calls; the normal quantile is modelled as an abstract
  real parameter `z` and the Wilson interval is computed over ℝ.
-/

/-- Player statistics for simulation (dataclass PlayerStats). -/
structure PlayerStats where
  first_in_pct : ℚ
  first_won_pct : ℚ
  second_won_pct : ℚ
  ace_pct : ℚ
  df_pct : ℚ
  return_vs_first : Option ℚ := none
  return_vs_second : Option ℚ := none
deriving DecidableEq

/-- Result of a single point (dataclass PointResult); winner: 1 = server, 0 = returner. -/
structure PointResult where
  winner : ℕ
  point_type : String
  serve : String
deriving DecidableEq

/-- Result of a single game (dataclass GameResult); winner: 1 = server, 0 = returner;
score = (server_points, returner_points). -/
structure GameResult where
  winner : ℕ
  score : ℕ × ℕ
deriving DecidableEq

/-- Result of a tiebreak (dataclass TiebreakResult); winner: 1 or 2; score = (p1_points, p2_points). -/
structure TiebreakResult where
  winner : ℕ
  score : ℕ × ℕ
deriving DecidableEq

/-- Result of a set (dataclass SetResult); winner: 1 or 2; score = (p1_games, p2_games). -/
structure SetResult where
  winner : ℕ
  score : ℕ × ℕ
  tiebreak : Bool
  tiebreak_score : Option (ℕ × ℕ) := none
deriving DecidableEq

/-- Result of a complete match (dataclass MatchResult); winner: 1 or 2; score = (p1_sets, p2_sets). -/
structure MatchResult where
  winner : ℕ
  score : ℕ × ℕ
  set_scores : List (ℕ × ℕ)
  score_string : String
deriving DecidableEq

/-- Global toggle for opponent adjustment (USE_OPPONENT_ADJUSTMENT = True). -/
def USE_OPPONENT_ADJUSTMENT : Bool := true

/-- Hardcoded tour average return rate vs first serve (AVG_RETURN_VS_FIRST = 0.35). -/
def AVG_RETURN_VS_FIRST : ℚ := 35/100

/-- Hardcoded tour average return rate vs second serve (AVG_RETURN_VS_SECOND = 0.50). -/
def AVG_RETURN_VS_SECOND : ℚ := 50/100

/-- Python division: x / y raises ZeroDivisionError when y = 0. -/
def pyDiv (a b : ℚ) : Except String ℚ :=
  if b = 0 then .error "division by zero" else .ok (a / b)

/-- simulate_point, lines 93-177. Each random.random() call pops one draw.
The draw stream left over after the point is returned alongside the result. -/
def simulate_point (server_stats : PlayerStats) (returner_stats : Option PlayerStats)
    (use_adjustment : Option Bool) (draws : List ℚ) :
    Except String (PointResult × List ℚ) :=
  -- if use_adjustment is None: use_adjustment = USE_OPPONENT_ADJUSTMENT
  let adj := use_adjustment.getD USE_OPPONENT_ADJUSTMENT
  match draws with
  | [] => .error "draws exhausted"
  | u :: draws =>
    -- first_in = random.random() < server_stats.first_in_pct
    if u < server_stats.first_in_pct then
      -- ace_rate_on_first = server_stats.ace_pct / server_stats.first_in_pct
      match pyDiv server_stats.ace_pct server_stats.first_in_pct with
      | .error e => .error e
      | .ok ace_rate_on_first =>
        match draws with
        | [] => .error "draws exhausted"
        | v :: draws =>
          if v < ace_rate_on_first then
            .ok (⟨1, "ace", "first"⟩, draws)
          else
            -- adjustment applies iff use_adjustment and returner_stats and return_vs_first are present
            let win_prob : ℚ :=
              if adj then
                match returner_stats with
                | some r =>
                  match r.return_vs_first with
                  | some rvf =>
                    max (3/10) (min (95/100) (server_stats.first_won_pct + (AVG_RETURN_VS_FIRST - rvf)))
                  | none => server_stats.first_won_pct
                | none => server_stats.first_won_pct
              else server_stats.first_won_pct
            match draws with
            | [] => .error "draws exhausted"
            | w :: draws =>
              .ok (⟨if w < win_prob then 1 else 0, "rally", "first"⟩, draws)
    else
      -- df_rate_on_second = server_stats.df_pct / (1 - server_stats.first_in_pct)
      match pyDiv server_stats.df_pct (1 - server_stats.first_in_pct) with
      | .error e => .error e
      | .ok df_rate_on_second =>
        match draws with
        | [] => .error "draws exhausted"
        | v :: draws =>
          if v < df_rate_on_second then
            .ok (⟨0, "double_fault", "second"⟩, draws)
          else
            let win_prob : ℚ :=
              if adj then
                match returner_stats with
                | some r =>
                  match r.return_vs_second with
                  | some rvs =>
                    max (2/10) (min (85/100) (server_stats.second_won_pct + (AVG_RETURN_VS_SECOND - rvs)))
                  | none => server_stats.second_won_pct
                | none => server_stats.second_won_pct
              else server_stats.second_won_pct
            match draws with
            | [] => .error "draws exhausted"
            | w :: draws =>
              .ok (⟨if w < win_prob then 1 else 0, "rally", "second"⟩, draws)

/-- The point algorithm exactly as the specification document words it
(spec section 4.1, steps 1-3 and edge cases), for comparison with the
code's simulate_point. Under the spec precondition 0 < first_in_pct < 1
the conditional rates are plain divisions. -/
def simulate_point_spec (server_stats : PlayerStats) (returner_stats : Option PlayerStats)
    (use_adjustment : Option Bool) (draws : List ℚ) :
    Except String (PointResult × List ℚ) :=
  -- use_adjustment unset falls back to the global configuration flag
  let enabled := use_adjustment.getD USE_OPPONENT_ADJUSTMENT
  match draws with
  | [] => .error "draws exhausted"
  | u :: draws =>
    -- step 1: draw u; first serve lands iff u < first_in_pct
    if u < server_stats.first_in_pct then
      -- step 2: ace rate conditional on landing
      let ace_rate := server_stats.ace_pct / server_stats.first_in_pct
      match draws with
      | [] => .error "draws exhausted"
      | v :: draws =>
        if v < ace_rate then
          -- outcome ace, server wins, serve first
          .ok (⟨1, "ace", "first"⟩, draws)
        else
          -- base win probability, replaced by the adjusted value when enabled and known
          let base := server_stats.first_won_pct
          let win_prob : ℚ :=
            if enabled then
              match returner_stats with
              | some r =>
                match r.return_vs_first with
                | some rvf => max (3/10) (min (95/100) (base + (AVG_RETURN_VS_FIRST - rvf)))
                | none => base
              | none => base
            else base
          match draws with
          | [] => .error "draws exhausted"
          | w :: draws =>
            -- server wins iff draw < win probability; category rally, serve first
            .ok (⟨if w < win_prob then 1 else 0, "rally", "first"⟩, draws)
    else
      -- step 3: double-fault rate conditional on missing
      let df_rate := server_stats.df_pct / (1 - server_stats.first_in_pct)
      match draws with
      | [] => .error "draws exhausted"
      | v :: draws =>
        if v < df_rate then
          -- outcome double-fault, returner wins, serve second
          .ok (⟨0, "double_fault", "second"⟩, draws)
        else
          let base := server_stats.second_won_pct
          let win_prob : ℚ :=
            if enabled then
              match returner_stats with
              | some r =>
                match r.return_vs_second with
                | some rvs => max (2/10) (min (85/100) (base + (AVG_RETURN_VS_SECOND - rvs)))
                | none => base
              | none => base
            else base
          match draws with
          | [] => .error "draws exhausted"
          | w :: draws =>
            .ok (⟨if w < win_prob then 1 else 0, "rally", "second"⟩, draws)

/-- The game termination condition of lines 208-211: some side has at least
4 points and leads by at least 2 (natural subtraction agrees with the
Python integer comparison here). -/
def gameDone (sp rp : ℕ) : Prop := (4 ≤ sp ∧ 2 ≤ sp - rp) ∨ (4 ≤ rp ∧ 2 ≤ rp - sp)

/-- The while-loop of simulate_game, lines 196-211, with fuel. Also returns
the list of point winners (true = server won the point), in order. -/
def simulate_game_aux (ss : PlayerStats) (rs : Option PlayerStats) (ua : Option Bool) :
    ℕ → List ℚ → ℕ → ℕ → Except String (GameResult × List Bool × List ℚ)
  | 0, _, _, _ => .error "out of fuel"
  | fuel+1, draws, server_points, returner_points =>
    match simulate_point ss rs ua draws with
    | .error e => .error e
    | .ok (pt, draws1) =>
      let w : Bool := pt.winner == 1
      let sp := if w then server_points + 1 else server_points
      let rp := if w then returner_points else returner_points + 1
      if 4 ≤ sp ∧ 2 ≤ sp - rp then .ok (⟨1, (sp, rp)⟩, [w], draws1)
      else if 4 ≤ rp ∧ 2 ≤ rp - sp then .ok (⟨0, (sp, rp)⟩, [w], draws1)
      else
        match simulate_game_aux ss rs ua fuel draws1 sp rp with
        | .error e => .error e
        | .ok (res, ws, rest) => .ok (res, w :: ws, rest)

/-- simulate_game, lines 184-211. -/
def simulate_game (ss : PlayerStats) (rs : Option PlayerStats) (ua : Option Bool)
    (fuel : ℕ) (draws : List ℚ) : Except String (GameResult × List Bool × List ℚ) :=
  simulate_game_aux ss rs ua fuel draws 0 0

/-- Tiebreak serve rotation of lines 240-243: point 0 is served by player 1,
point i for i ≥ 1 is served by player 1 iff ((i - 1) // 2) % 2 == 0. -/
def tbServerIsP1 (i : ℕ) : Bool := if i = 0 then true else decide ((i - 1) / 2 % 2 = 0)

/-- The tiebreak termination condition of lines 261-264: some side reached
to_points with a lead of at least 2. -/
def tbDone (target q1 q2 : ℕ) : Prop := (target ≤ q1 ∧ 2 ≤ q1 - q2) ∨ (target ≤ q2 ∧ 2 ≤ q2 - q1)

/-- The while-loop of simulate_tiebreak, lines 235-264, with fuel. Also
returns the per-point trace (server_is_p1, point_winner_is_p1), in order. -/
def simulate_tiebreak_aux (p1 p2 : PlayerStats) (to_points : ℕ) (ua : Option Bool) :
    ℕ → List ℚ → ℕ → ℕ → ℕ → Except String (TiebreakResult × List (Bool × Bool) × List ℚ)
  | 0, _, _, _, _ => .error "out of fuel"
  | fuel+1, draws, point_num, p1_points, p2_points =>
    let server_is_p1 : Bool := tbServerIsP1 point_num
    match (if server_is_p1 then simulate_point p1 (some p2) ua draws
           else simulate_point p2 (some p1) ua draws) with
    | .error e => .error e
    | .ok (pt, draws1) =>
      -- point_winner mapped back to player-1/player-2 space (lines 247, 250)
      let winner_is_p1 : Bool := if server_is_p1 then pt.winner == 1 else !(pt.winner == 1)
      let q1 := if winner_is_p1 then p1_points + 1 else p1_points
      let q2 := if winner_is_p1 then p2_points else p2_points + 1
      if to_points ≤ q1 ∧ 2 ≤ q1 - q2 then
        .ok (⟨1, (q1, q2)⟩, [(server_is_p1, winner_is_p1)], draws1)
      else if to_points ≤ q2 ∧ 2 ≤ q2 - q1 then
        .ok (⟨2, (q1, q2)⟩, [(server_is_p1, winner_is_p1)], draws1)
      else
        match simulate_tiebreak_aux p1 p2 to_points ua fuel draws1 (point_num + 1) q1 q2 with
        | .error e => .error e
        | .ok (res, tr, rest) => .ok (res, (server_is_p1, winner_is_p1) :: tr, rest)

/-- simulate_tiebreak, lines 218-264. -/
def simulate_tiebreak (p1 p2 : PlayerStats) (to_points : ℕ) (ua : Option Bool) (fuel : ℕ)
    (draws : List ℚ) : Except String (TiebreakResult × List (Bool × Bool) × List ℚ) :=
  simulate_tiebreak_aux p1 p2 to_points ua fuel draws 0 0 0

/-- Server alternation: 2 if current_server == 1 else 1 (lines 327, 346). -/
def otherPlayer (s : ℕ) : ℕ := if s = 1 then 2 else 1

/-- The while-loop of simulate_set, lines 289-346, with fuel. Also returns
the per-game trace (current_server, game_winner_is_p1), in order. -/
def simulate_set_aux (p1 p2 : PlayerStats) (tiebreak_at : ℕ) (final_set_tb : String)
    (ua : Option Bool) (gfuel : ℕ) :
    ℕ → List ℚ → ℕ → ℕ → ℕ → Except String (SetResult × List (ℕ × Bool) × List ℚ)
  | 0, _, _, _, _ => .error "out of fuel"
  | fuel+1, draws, current_server, p1_games, p2_games =>
    match (if current_server = 1 then simulate_game p1 (some p2) ua gfuel draws
           else simulate_game p2 (some p1) ua gfuel draws) with
    | .error e => .error e
    | .ok (gr, _, draws1) =>
      let game_winner_is_p1 : Bool := if current_server = 1 then gr.winner == 1 else !(gr.winner == 1)
      let g1 := if game_winner_is_p1 then p1_games + 1 else p1_games
      let g2 := if game_winner_is_p1 then p2_games else p2_games + 1
      -- set won: 6+ games, lead of 2 (lines 309-320)
      if 6 ≤ g1 ∧ 2 ≤ g1 - g2 then
        .ok (⟨1, (g1, g2), false, none⟩, [(current_server, game_winner_is_p1)], draws1)
      else if 6 ≤ g2 ∧ 2 ≤ g2 - g1 then
        .ok (⟨2, (g1, g2), false, none⟩, [(current_server, game_winner_is_p1)], draws1)
      -- tiebreak check (lines 324-343)
      else if g1 = tiebreak_at ∧ g2 = tiebreak_at then
        if final_set_tb = "none" then
          -- advantage set: alternate server and continue playing
          match simulate_set_aux p1 p2 tiebreak_at final_set_tb ua gfuel fuel draws1
              (otherPlayer current_server) g1 g2 with
          | .error e => .error e
          | .ok (res, tr, rest) => .ok (res, (current_server, game_winner_is_p1) :: tr, rest)
        else
          let tb_points : ℕ := if final_set_tb = "super" then 10 else 7
          match simulate_tiebreak p1 p2 tb_points ua gfuel draws1 with
          | .error e => .error e
          | .ok (tbr, _, rest) =>
            let h1 := if tbr.winner = 1 then g1 + 1 else g1
            let h2 := if tbr.winner = 1 then g2 else g2 + 1
            .ok (⟨tbr.winner, (h1, h2), true, some tbr.score⟩,
                 [(current_server, game_winner_is_p1)], rest)
      else
        match simulate_set_aux p1 p2 tiebreak_at final_set_tb ua gfuel fuel draws1
            (otherPlayer current_server) g1 g2 with
        | .error e => .error e
        | .ok (res, tr, rest) => .ok (res, (current_server, game_winner_is_p1) :: tr, rest)

/-- simulate_set, lines 271-346. -/
def simulate_set (p1 p2 : PlayerStats) (first_server : ℕ) (tiebreak_at : ℕ)
    (final_set_tb : String) (ua : Option Bool) (gfuel sfuel : ℕ) (draws : List ℚ) :
    Except String (SetResult × List (ℕ × Bool) × List ℚ) :=
  simulate_set_aux p1 p2 tiebreak_at final_set_tb ua gfuel sfuel draws first_server 0 0

/-- sets_to_win = (best_of + 1) // 2 (line 365). -/
def setsToWin (best_of : ℕ) : ℕ := (best_of + 1) / 2

/-- The score string of line 401: space-separated "g1-g2" per set. -/
def scoreString (scores : List (ℕ × ℕ)) : String :=
  String.intercalate " " (scores.map fun s => toString s.1 ++ "-" ++ toString s.2)

/-- The per-set bookkeeping rules of the match loop (lines 375-396), stated
over a match trace whose entries are (policy used, first server of the set,
set result): each set uses the caller policy iff both players are exactly
one set away from winning, otherwise "normal"; each set starts with the
current server; and the next set flips the first server iff the completed
set had an odd total number of games. -/
def matchTraceOk (stw : ℕ) (fstb : String) : ℕ → ℕ → ℕ → List (String × ℕ × SetResult) → Prop
  | _, _, _, [] => True
  | p1s, p2s, cur, e :: tr =>
    e.1 = (if p1s = stw - 1 ∧ p2s = stw - 1 then fstb else "normal") ∧
    e.2.1 = cur ∧
    matchTraceOk stw fstb (if e.2.2.winner = 1 then p1s + 1 else p1s)
      (if e.2.2.winner = 1 then p2s else p2s + 1)
      (if (e.2.2.score.1 + e.2.2.score.2) % 2 = 1 then otherPlayer cur else cur) tr

/-- The while-loop of simulate_match, lines 367-408, with fuel. Also returns
the per-set trace (policy used, first server of the set, set result). -/
def simulate_match_aux (p1 p2 : PlayerStats) (best_of : ℕ) (fstb : String) (ua : Option Bool)
    (sfuel gfuel : ℕ) :
    ℕ → List ℚ → ℕ → ℕ → ℕ → List (ℕ × ℕ) →
    Except String (MatchResult × List (String × ℕ × SetResult) × List ℚ)
  | 0, _, _, _, _, _ => .error "out of fuel"
  | fuel+1, draws, p1_sets, p2_sets, current_server, set_scores =>
    if p1_sets < setsToWin best_of ∧ p2_sets < setsToWin best_of then
      -- is_final_set and the per-set policy (lines 376, 382)
      let policy :=
        if p1_sets = setsToWin best_of - 1 ∧ p2_sets = setsToWin best_of - 1 then fstb
        else "normal"
      match simulate_set p1 p2 current_server 6 policy ua gfuel sfuel draws with
      | .error e => .error e
      | .ok (sr, _, draws1) =>
        let q1 := if sr.winner = 1 then p1_sets + 1 else p1_sets
        let q2 := if sr.winner = 1 then p2_sets else p2_sets + 1
        -- server for next set flips iff total games of the set is odd (lines 394-396)
        let next_server :=
          if (sr.score.1 + sr.score.2) % 2 = 1 then otherPlayer current_server
          else current_server
        match simulate_match_aux p1 p2 best_of fstb ua sfuel gfuel fuel draws1 q1 q2
            next_server (set_scores ++ [sr.score]) with
        | .error e => .error e
        | .ok (res, tr, rest) => .ok (res, (policy, current_server, sr) :: tr, rest)
    else
      .ok (⟨if p2_sets < p1_sets then 1 else 2, (p1_sets, p2_sets), set_scores,
            scoreString set_scores⟩, [], draws)

/-- simulate_match, lines 353-408. random.choice([1, 2]) for the first
server is modelled as one uniform draw. -/
def simulate_match (p1 p2 : PlayerStats) (best_of : ℕ) (fstb : String) (ua : Option Bool)
    (mfuel sfuel gfuel : ℕ) (draws : List ℚ) :
    Except String (MatchResult × List (String × ℕ × SetResult) × List ℚ) :=
  match draws with
  | [] => .error "draws exhausted"
  | u :: rest =>
    simulate_match_aux p1 p2 best_of fstb ua sfuel gfuel mfuel rest 0 0
      (if u < 1/2 then 1 else 2) []

/-- The trial loop of estimate_win_probability, lines 434-438: run n matches,
counting player-1 wins. -/
def run_trials (p1 p2 : PlayerStats) (best_of : ℕ) (fstb : String) (ua : Option Bool)
    (mfuel sfuel gfuel : ℕ) : ℕ → List ℚ → ℕ → Except String (ℕ × List ℚ)
  | 0, draws, wins => .ok (wins, draws)
  | n+1, draws, wins =>
    match simulate_match p1 p2 best_of fstb ua mfuel sfuel gfuel draws with
    | .error e => .error e
    | .ok (res, _, rest) =>
      run_trials p1 p2 best_of fstb ua mfuel sfuel gfuel n rest
        (if res.winner = 1 then wins + 1 else wins)

/-- The computational core of estimate_win_probability, lines 434-440:
the trial loop followed by p1_win_prob = p1_wins / n_sims (an integer
division by zero in Python when n_sims is 0). -/
def estimate_core (p1 p2 : PlayerStats) (n_sims best_of : ℕ) (fstb : String) (ua : Option Bool)
    (mfuel sfuel gfuel : ℕ) (draws : List ℚ) : Except String (ℕ × ℚ × List ℚ) :=
  match run_trials p1 p2 best_of fstb ua mfuel sfuel gfuel n_sims draws 0 with
  | .error e => .error e
  | .ok (wins, rest) =>
    match pyDiv (wins : ℚ) (n_sims : ℚ) with
    | .error e => .error e
    | .ok p => .ok (wins, p, rest)

/-- The estimation result record returned by estimate_win_probability,
lines 456-462. The confidence bounds use real arithmetic. -/
structure EstimationResult where
  p1_win_prob : ℚ
  p2_win_prob : ℚ
  ci_lower : ℝ
  ci_upper : ℝ
  n_sims : ℕ

/-- Wilson lower bound of lines 449-453: (centre - spread) / denominator. -/
noncomputable def wilson_ci_lower (z : ℝ) (p : ℚ) (n : ℕ) : ℝ :=
  (((p : ℝ) + z^2 / (2 * n)) - z * Real.sqrt (((p : ℝ) * (1 - (p : ℝ)) + z^2 / (4 * n)) / n)) /
    (1 + z^2 / n)

/-- Wilson upper bound of lines 449-454: (centre + spread) / denominator. -/
noncomputable def wilson_ci_upper (z : ℝ) (p : ℚ) (n : ℕ) : ℝ :=
  (((p : ℝ) + z^2 / (2 * n)) + z * Real.sqrt (((p : ℝ) * (1 - (p : ℝ)) + z^2 / (4 * n)) / n)) /
    (1 + z^2 / n)

/-- estimate_win_probability, lines 415-462. The global random source is the
stream rngState; if a seed is supplied the source is re-seeded, modelled by
an abstract map seedStream from seeds to streams (lines 430-432); z models
the fixed normal quantile stats.norm.ppf(0.975) of line 445. -/
noncomputable def estimate_win_probability (z : ℝ) (seedStream : ℤ → List ℚ)
    (rngState : List ℚ) (p1 p2 : PlayerStats) (n_sims best_of : ℕ) (fstb : String)
    (ua : Option Bool) (seed : Option ℤ) (mfuel sfuel gfuel : ℕ) :
    Except String (EstimationResult × List ℚ) :=
  let draws := match seed with | some s => seedStream s | none => rngState
  match estimate_core p1 p2 n_sims best_of fstb ua mfuel sfuel gfuel draws with
  | .error e => .error e
  | .ok (_, p, rest) =>
    .ok ({ p1_win_prob := p, p2_win_prob := 1 - p,
           ci_lower := wilson_ci_lower z p n_sims,
           ci_upper := wilson_ci_upper z p n_sims,
           n_sims := n_sims }, rest)

/-- A deterministic stats profile used for concrete runs: with draw 0 the
point is an ace (server wins, two draws), with draws 3/4 then 0 it is a
double fault (returner wins, two draws). -/
def S0 : PlayerStats := ⟨1/2, 1/2, 1/2, 1/2, 1/2, none, none⟩

/-- Player 1 of the repository's test case 1 (lines 483-491). -/
def S1 : PlayerStats := ⟨62/100, 75/100, 52/100, 8/100, 3/100, some (30/100), some (50/100)⟩

/-- Player 2 of the repository's test case 1 (lines 493-501). -/
def S2 : PlayerStats := ⟨65/100, 72/100, 50/100, 5/100, 4/100, some (32/100), some (52/100)⟩

/-- Draw block making the server win one game with four aces. -/
def gameW : List ℚ := [0, 0, 0, 0, 0, 0, 0, 0]

/-- Draw block making the server lose one game with four double faults. -/
def gameL : List ℚ := [3/4, 0, 3/4, 0, 3/4, 0, 3/4, 0]

/-- Draws for a 7-5 advantage set between two S0 players: eleven games won
by the server (alternating winners up to 5-5, then 6-5 to player 1) and a
final game lost by the serving player 2 (7-5, never reaching 6-6). -/
def draws75 : List ℚ := (List.replicate 11 gameW).flatten ++ gameL

/-- Draws for an 8-6 advantage set between two S0 players: thirteen games
won by the server (alternating winners through 6-6 and on to 7-6) and a
final game lost by the serving player 2 (8-6, passing through 6-6). -/
def draws86 : List ℚ := (List.replicate 13 gameW).flatten ++ gameL

/-- Draws for one 6-0 set won by player 1 when player 1 serves first:
server 1 wins on aces, server 2 loses on double faults, three times over. -/
def setBlockWin1 : List ℚ := (List.replicate 3 (gameW ++ gameL)).flatten

/-- Draws for a straight 6-0 6-0 match: one draw selecting player 1 as the
first server (each set has an even number of games, so the first server
never flips), then two 6-0 sets. -/
def matchDraws : List ℚ := 0 :: (setBlockWin1 ++ setBlockWin1)

/-- Draws for a single best-of-1 trial won by player 1: one draw selecting
player 1 as first server, then a 6-0 set. -/
def estDraws : List ℚ := 0 :: setBlockWin1

/-- Loop invariant of simulate_game_aux: a successful run returns the score
accumulated from the point winners, the winner condition of lines 208-211
holds at the final score, and at no proper prefix of the point sequence. -/
theorem simulate_game_aux_spec (ss : PlayerStats) (rs : Option PlayerStats) (ua : Option Bool) :
    ∀ fuel draws sp rp res ws rest,
      simulate_game_aux ss rs ua fuel draws sp rp = .ok (res, ws, rest) →
      ¬ gameDone sp rp →
      res.score = (sp + ws.count true, rp + ws.count false) ∧
      ((res.winner = 1 ∧ 4 ≤ res.score.1 ∧ 2 ≤ res.score.1 - res.score.2) ∨
       (res.winner = 0 ∧ 4 ≤ res.score.2 ∧ 2 ≤ res.score.2 - res.score.1)) ∧
      (∀ k, k < ws.length →
        ¬ gameDone (sp + (ws.take k).count true) (rp + (ws.take k).count false)) := by
  intro fuel
  induction fuel with
  | zero =>
    intro draws sp rp res ws rest h
    simp [simulate_game_aux] at h
  | succ n ih =>
    intro draws sp rp res ws rest h hnd
    rw [simulate_game_aux] at h
    split at h
    · exact absurd h (by simp)
    · rename_i pt draws1 heq
      simp only at h
      cases hw : (pt.winner == 1 : Bool) <;> simp only [hw] at h <;>
        simp only [Bool.false_eq_true, if_true, if_false, ite_true, ite_false] at h <;>
        split at h
      case false.isTrue hdone =>
        obtain ⟨hres, hws, hrest⟩ := by simpa using h
        subst hres hws hrest
        refine ⟨by simp, Or.inl ⟨rfl, by simpa using hdone⟩, ?_⟩
        intro k hk
        simp only [List.length_cons, List.length_nil] at hk
        have hk0 : k = 0 := by omega
        subst hk0
        simpa using hnd
      case false.isFalse hdone1 =>
        split at h
        case isTrue hdone2 =>
          obtain ⟨hres, hws, hrest⟩ := by simpa using h
          subst hres hws hrest
          refine ⟨by simp, Or.inr ⟨rfl, by simpa using hdone2⟩, ?_⟩
          intro k hk
          simp only [List.length_cons, List.length_nil] at hk
          have hk0 : k = 0 := by omega
          subst hk0
          simpa using hnd
        case isFalse hdone2 =>
          split at h
          · exact absurd h (by simp)
          case _ res1 ws1 rest1 heq1 =>
            obtain ⟨hres, hws, hrest⟩ := by simpa using h
            subst hres hws hrest
            have hnd1 : ¬ gameDone sp (rp + 1) := by
              simp only [gameDone]
              tauto
            obtain ⟨ih1, ih2, ih3⟩ := ih _ _ _ _ _ _ heq1 hnd1
            refine ⟨?_, ih2, ?_⟩
            · rw [ih1]
              simp [List.count_cons, Prod.mk.injEq] <;> omega
            · intro k hk
              cases k with
              | zero => simpa using hnd
              | succ j =>
                have hj : j < ws1.length := by simpa using hk
                have hih := ih3 j hj
                simp only [List.take_succ_cons, List.count_cons] at hih ⊢
                simp only [gameDone] at hih ⊢
                simp at hih ⊢
                omega
      case true.isTrue hdone =>
        obtain ⟨hres, hws, hrest⟩ := by simpa using h
        subst hres hws hrest
        refine ⟨by simp, Or.inl ⟨rfl, by simpa using hdone⟩, ?_⟩
        intro k hk
        simp only [List.length_cons, List.length_nil] at hk
        have hk0 : k = 0 := by omega
        subst hk0
        simpa using hnd
      case true.isFalse hdone1 =>
        split at h
        case isTrue hdone2 =>
          obtain ⟨hres, hws, hrest⟩ := by simpa using h
          subst hres hws hrest
          refine ⟨by simp, Or.inr ⟨rfl, by simpa using hdone2⟩, ?_⟩
          intro k hk
          simp only [List.length_cons, List.length_nil] at hk
          have hk0 : k = 0 := by omega
          subst hk0
          simpa using hnd
        case isFalse hdone2 =>
          split at h
          · exact absurd h (by simp)
          case _ res1 ws1 rest1 heq1 =>
            obtain ⟨hres, hws, hrest⟩ := by simpa using h
            subst hres hws hrest
            have hnd1 : ¬ gameDone (sp + 1) rp := by
              simp only [gameDone]
              tauto
            obtain ⟨ih1, ih2, ih3⟩ := ih _ _ _ _ _ _ heq1 hnd1
            refine ⟨?_, ih2, ?_⟩
            · rw [ih1]
              simp [List.count_cons, Prod.mk.injEq] <;> omega
            · intro k hk
              cases k with
              | zero => simpa using hnd
              | succ j =>
                have hj : j < ws1.length := by simpa using hk
                have hih := ih3 j hj
                simp only [List.take_succ_cons, List.count_cons] at hih ⊢
                simp only [gameDone] at hih ⊢
                simp at hih ⊢
                omega

/-- Claim C4: for every game returned by simulate_game, the winner's point
count is at least 4 and exceeds the loser's by at least 2, and the returned
score is reached at the first point of the point sequence at which that
condition becomes true: no proper prefix of the simulated points already
satisfies it. -/
theorem C4_simulate_game_first_hitting (ss : PlayerStats) (rs : Option PlayerStats)
    (ua : Option Bool) (fuel : ℕ) (draws : List ℚ) (res : GameResult) (ws : List Bool)
    (rest : List ℚ)
    (h : simulate_game ss rs ua fuel draws = .ok (res, ws, rest)) :
    res.score = (ws.count true, ws.count false) ∧
    ((res.winner = 1 ∧ 4 ≤ res.score.1 ∧ res.score.2 + 2 ≤ res.score.1) ∨
     (res.winner = 0 ∧ 4 ≤ res.score.2 ∧ res.score.1 + 2 ≤ res.score.2)) ∧
    gameDone res.score.1 res.score.2 ∧
    (∀ k, k < ws.length → ¬ gameDone ((ws.take k).count true) ((ws.take k).count false)) := by
  have hnd : ¬ gameDone 0 0 := by simp [gameDone]
  obtain ⟨h1, h2, h3⟩ := simulate_game_aux_spec ss rs ua fuel draws 0 0 res ws rest h hnd
  refine ⟨by simpa using h1, ?_, ?_, ?_⟩
  · rcases h2 with ⟨hw, h4, hl⟩ | ⟨hw, h4, hl⟩
    · exact Or.inl ⟨hw, h4, by omega⟩
    · exact Or.inr ⟨hw, h4, by omega⟩
  · rcases h2 with ⟨hw, h4, hl⟩ | ⟨hw, h4, hl⟩
    · exact Or.inl ⟨h4, hl⟩
    · exact Or.inr ⟨h4, hl⟩
  · intro k hk
    simpa using h3 k hk

/-- Witness for C4 on a concrete run: a 4-0 game of four aces, whose score
is not reached by any proper prefix, checked here at the prefix of length 2. -/
theorem C4_simulate_game_first_hitting_witness :
    ¬ gameDone (([true, true, true, true].take 2).count true)
      (([true, true, true, true].take 2).count false) :=
  (C4_simulate_game_first_hitting S0 none (some false) 5 gameW ⟨1, (4, 0)⟩
    [true, true, true, true] []
    (by norm_num [simulate_game, simulate_game_aux, simulate_point, pyDiv, S0, gameW])).2.2.2
    2 (by norm_num)

/-- Loop invariant of simulate_tiebreak_aux: a successful run returns the
score accumulated from the per-point winners, the winner condition of lines
261-264 holds at the final score and at no proper prefix, and every traced
point records the server given by the rotation rule of lines 240-243. -/
theorem simulate_tiebreak_aux_spec (p1 p2 : PlayerStats) (T : ℕ) (ua : Option Bool) :
    ∀ fuel draws n q1 q2 res tr rest,
      simulate_tiebreak_aux p1 p2 T ua fuel draws n q1 q2 = .ok (res, tr, rest) →
      ¬ tbDone T q1 q2 →
      res.score = (q1 + (tr.map Prod.snd).count true, q2 + (tr.map Prod.snd).count false) ∧
      ((res.winner = 1 ∧ T ≤ res.score.1 ∧ 2 ≤ res.score.1 - res.score.2) ∨
       (res.winner = 2 ∧ T ≤ res.score.2 ∧ 2 ≤ res.score.2 - res.score.1)) ∧
      (∀ i e, tr[i]? = some e → e.1 = tbServerIsP1 (n + i)) ∧
      (∀ k, k < tr.length →
        ¬ tbDone T (q1 + ((tr.map Prod.snd).take k).count true)
          (q2 + ((tr.map Prod.snd).take k).count false)) := by
  intro fuel
  induction fuel with
  | zero =>
    intro draws n q1 q2 res tr rest h
    simp [simulate_tiebreak_aux] at h
  | succ m ih =>
    intro draws n q1 q2 res tr rest h hnd
    rw [simulate_tiebreak_aux] at h
    split at h
    · exact absurd h (by simp)
    · rename_i pt draws1 heq
      simp only at h
      cases hw : (if (tbServerIsP1 n : Bool) then (pt.winner == 1 : Bool)
          else !(pt.winner == 1)) <;> simp only [hw] at h <;>
        simp only [Bool.false_eq_true, if_true, if_false, ite_true, ite_false] at h <;>
        split at h
      case false.isTrue hdone =>
        obtain ⟨hres, htr, hrest⟩ := by simpa using h
        subst hres htr hrest
        refine ⟨by simp, Or.inl ⟨rfl, by simpa using hdone⟩, ?_, ?_⟩
        · intro i e hie
          cases i with
          | zero =>
            have he : (tbServerIsP1 n, false) = e := by simpa using hie
            rw [← he]
            simp
          | succ j => simp at hie
        · intro k hk
          simp only [List.length_cons, List.length_nil] at hk
          have hk0 : k = 0 := by omega
          subst hk0
          simpa using hnd
      case false.isFalse hdone1 =>
        split at h
        case isTrue hdone2 =>
          obtain ⟨hres, htr, hrest⟩ := by simpa using h
          subst hres htr hrest
          refine ⟨by simp, Or.inr ⟨rfl, by simpa using hdone2⟩, ?_, ?_⟩
          · intro i e hie
            cases i with
            | zero =>
              have he : (tbServerIsP1 n, false) = e := by simpa using hie
              rw [← he]
              simp
            | succ j => simp at hie
          · intro k hk
            simp only [List.length_cons, List.length_nil] at hk
            have hk0 : k = 0 := by omega
            subst hk0
            simpa using hnd
        case isFalse hdone2 =>
          split at h
          · exact absurd h (by simp)
          case _ res1 tr1 rest1 heq1 =>
            obtain ⟨hres, htr, hrest⟩ := by simpa using h
            subst hres htr hrest
            have hnd1 : ¬ tbDone T q1 (q2 + 1) := by
              simp only [tbDone]
              tauto
            obtain ⟨ih1, ih2, ihs, ih3⟩ := ih _ _ _ _ _ _ _ heq1 hnd1
            refine ⟨?_, ih2, ?_, ?_⟩
            · rw [ih1]
              simp [List.count_cons, Prod.mk.injEq] <;> omega
            · intro i e hie
              cases i with
              | zero =>
                have he : (tbServerIsP1 n, false) = e := by simpa using hie
                rw [← he]
                simp
              | succ j =>
                have hj := ihs j e (by simpa using hie)
                have harith : n + 1 + j = n + (j + 1) := by omega
                rw [harith] at hj
                exact hj
            · intro k hk
              cases k with
              | zero => simpa using hnd
              | succ j =>
                have hj : j < tr1.length := by simpa using hk
                have hih := ih3 j hj
                simp only [List.map_cons, List.take_succ_cons, List.count_cons] at hih ⊢
                simp only [tbDone] at hih ⊢
                simp at hih ⊢
                omega
      case true.isTrue hdone =>
        obtain ⟨hres, htr, hrest⟩ := by simpa using h
        subst hres htr hrest
        refine ⟨by simp, Or.inl ⟨rfl, by simpa using hdone⟩, ?_, ?_⟩
        · intro i e hie
          cases i with
          | zero =>
            have he : (tbServerIsP1 n, true) = e := by simpa using hie
            rw [← he]
            simp
          | succ j => simp at hie
        · intro k hk
          simp only [List.length_cons, List.length_nil] at hk
          have hk0 : k = 0 := by omega
          subst hk0
          simpa using hnd
      case true.isFalse hdone1 =>
        split at h
        case isTrue hdone2 =>
          obtain ⟨hres, htr, hrest⟩ := by simpa using h
          subst hres htr hrest
          refine ⟨by simp, Or.inr ⟨rfl, by simpa using hdone2⟩, ?_, ?_⟩
          · intro i e hie
            cases i with
            | zero =>
              have he : (tbServerIsP1 n, true) = e := by simpa using hie
              rw [← he]
              simp
            | succ j => simp at hie
          · intro k hk
            simp only [List.length_cons, List.length_nil] at hk
            have hk0 : k = 0 := by omega
            subst hk0
            simpa using hnd
        case isFalse hdone2 =>
          split at h
          · exact absurd h (by simp)
          case _ res1 tr1 rest1 heq1 =>
            obtain ⟨hres, htr, hrest⟩ := by simpa using h
            subst hres htr hrest
            have hnd1 : ¬ tbDone T (q1 + 1) q2 := by
              simp only [tbDone]
              tauto
            obtain ⟨ih1, ih2, ihs, ih3⟩ := ih _ _ _ _ _ _ _ heq1 hnd1
            refine ⟨?_, ih2, ?_, ?_⟩
            · rw [ih1]
              simp [List.count_cons, Prod.mk.injEq] <;> omega
            · intro i e hie
              cases i with
              | zero =>
                have he : (tbServerIsP1 n, true) = e := by simpa using hie
                rw [← he]
                simp
              | succ j =>
                have hj := ihs j e (by simpa using hie)
                have harith : n + 1 + j = n + (j + 1) := by omega
                rw [harith] at hj
                exact hj
            · intro k hk
              cases k with
              | zero => simpa using hnd
              | succ j =>
                have hj : j < tr1.length := by simpa using hk
                have hih := ih3 j hj
                simp only [List.map_cons, List.take_succ_cons, List.count_cons] at hih ⊢
                simp only [tbDone] at hih ⊢
                simp at hih ⊢
                omega

/-- Claim C5: in every tiebreak simulated by simulate_tiebreak with target T,
point 0 is served by player 1 and point i for i ≥ 1 is served by player 1
iff ((i - 1) // 2) % 2 == 0; the score counts the per-point winners mapped
back to player-1/player-2 space; and the returned score has the winner's
points at least T with a lead of at least 2, reached at the first point
where that holds. -/
theorem C5_simulate_tiebreak_spec (p1 p2 : PlayerStats) (T : ℕ) (ua : Option Bool)
    (fuel : ℕ) (draws : List ℚ) (res : TiebreakResult) (tr : List (Bool × Bool))
    (rest : List ℚ)
    (h : simulate_tiebreak p1 p2 T ua fuel draws = .ok (res, tr, rest)) :
    tbServerIsP1 0 = true ∧
    (∀ i, 1 ≤ i → (tbServerIsP1 i = true ↔ (i - 1) / 2 % 2 = 0)) ∧
    (∀ i e, tr[i]? = some e → e.1 = tbServerIsP1 i) ∧
    res.score = ((tr.map Prod.snd).count true, (tr.map Prod.snd).count false) ∧
    ((res.winner = 1 ∧ T ≤ res.score.1 ∧ res.score.2 + 2 ≤ res.score.1) ∨
     (res.winner = 2 ∧ T ≤ res.score.2 ∧ res.score.1 + 2 ≤ res.score.2)) ∧
    (∀ k, k < tr.length →
      ¬ tbDone T (((tr.map Prod.snd).take k).count true)
        (((tr.map Prod.snd).take k).count false)) := by
  have hnd : ¬ tbDone T 0 0 := by simp [tbDone]
  obtain ⟨h1, h2, hserve, h3⟩ :=
    simulate_tiebreak_aux_spec p1 p2 T ua fuel draws 0 0 0 res tr rest h hnd
  refine ⟨rfl, ?_, ?_, by simpa using h1, ?_, ?_⟩
  · intro i hi
    have hi0 : i ≠ 0 := by omega
    simp [tbServerIsP1, hi0]
  · intro i e hie
    simpa using hserve i e hie
  · rcases h2 with ⟨hw, hT, hl⟩ | ⟨hw, hT, hl⟩
    · exact Or.inl ⟨hw, hT, by omega⟩
    · exact Or.inr ⟨hw, hT, by omega⟩
  · intro k hk
    simpa using h3 k hk

/-- Witness for C5 on a concrete run: a 7-0 tiebreak (three p1 service
points, two p2 double faults, two more p1 service points), whose score is
not reached before the last point, checked here at the prefix of length 5. -/
theorem C5_simulate_tiebreak_spec_witness :
    ¬ tbDone 7
      ((([(true, true), (true, true), (true, true), (false, true), (false, true),
          (true, true), (true, true)].map Prod.snd).take 5).count true)
      ((([(true, true), (true, true), (true, true), (false, true), (false, true),
          (true, true), (true, true)].map Prod.snd).take 5).count false) :=
  (C5_simulate_tiebreak_spec S0 S0 7 (some false) 8
    ([0, 0, 0, 0, 0, 0, 3/4, 0, 3/4, 0, 0, 0, 0, 0] : List ℚ) ⟨1, (7, 0)⟩
    [(true, true), (true, true), (true, true), (false, true), (false, true),
     (true, true), (true, true)] []
    (by norm_num [simulate_tiebreak, simulate_tiebreak_aux, simulate_point, pyDiv, S0,
      tbServerIsP1])).2.2.2.2.2 5 (by norm_num)

/-- Loop invariant of simulate_set_aux: a successful run ends either with a
player on 6+ games and a lead of two (no tiebreak, lines 309-320), or via
the tiebreak branch of lines 324-343 (policy not "none", both players on
tiebreak_at games, tiebreak winner granted one extra game, sub-score
attached); under policy "none" the tiebreak branch is never taken; and the
traced server starts at the given first server and alternates every game. -/
theorem simulate_set_aux_spec (p1 p2 : PlayerStats) (tb_at : ℕ) (fstb : String)
    (ua : Option Bool) (gfuel : ℕ) :
    ∀ fuel draws cur g1 g2 res tr rest,
      simulate_set_aux p1 p2 tb_at fstb ua gfuel fuel draws cur g1 g2 = .ok (res, tr, rest) →
      (res.tiebreak = false → res.tiebreak_score = none ∧
        ((res.winner = 1 ∧ 6 ≤ res.score.1 ∧ 2 ≤ res.score.1 - res.score.2) ∨
         (res.winner = 2 ∧ 6 ≤ res.score.2 ∧ 2 ≤ res.score.2 - res.score.1))) ∧
      (res.tiebreak = true → fstb ≠ "none" ∧
        ∃ ts, res.tiebreak_score = some ts ∧
          ((res.winner = 1 ∧ res.score = (tb_at + 1, tb_at) ∧
            (if fstb = "super" then 10 else 7) ≤ ts.1 ∧ ts.2 + 2 ≤ ts.1) ∨
           (res.winner = 2 ∧ res.score = (tb_at, tb_at + 1) ∧
            (if fstb = "super" then 10 else 7) ≤ ts.2 ∧ ts.1 + 2 ≤ ts.2))) ∧
      (fstb = "none" → res.tiebreak = false) ∧
      (∀ e, tr[0]? = some e → e.1 = cur) ∧
      (∀ j a b, tr[j]? = some a → tr[j+1]? = some b → b.1 = otherPlayer a.1) := by
  intro fuel
  induction fuel with
  | zero =>
    intro draws cur g1 g2 res tr rest h
    simp [simulate_set_aux] at h
  | succ m ih =>
    intro draws cur g1 g2 res tr rest h
    rw [simulate_set_aux] at h
    split at h
    · exact absurd h (by simp)
    · rename_i gr gws draws1 heq
      simp only at h
      generalize hW : (if cur = 1 then (gr.winner == 1 : Bool) else !(gr.winner == 1)) = W at h
      generalize hG1 : (if W then g1 + 1 else g1) = G1 at h
      generalize hG2 : (if W then g2 else g2 + 1) = G2 at h
      split at h
      case isTrue hdone =>
        obtain ⟨hres, htr, hrest⟩ := by simpa using h
        subst hres htr hrest
        refine ⟨fun _ => ⟨rfl, Or.inl ⟨rfl, hdone⟩⟩, by simp, fun _ => rfl, ?_, ?_⟩
        · intro e hie
          have he : (cur, W) = e := by simpa using hie
          rw [← he]
        · intro j a b ha hb
          cases j <;> simp at hb
      case isFalse hd1 =>
        split at h
        case isTrue hdone =>
          obtain ⟨hres, htr, hrest⟩ := by simpa using h
          subst hres htr hrest
          refine ⟨fun _ => ⟨rfl, Or.inr ⟨rfl, hdone⟩⟩, by simp, fun _ => rfl, ?_, ?_⟩
          · intro e hie
            have he : (cur, W) = e := by simpa using hie
            rw [← he]
          · intro j a b ha hb
            cases j <;> simp at hb
        case isFalse hd2 =>
          split at h
          case isTrue htie =>
            split at h
            case isTrue hnone =>
              split at h
              · exact absurd h (by simp)
              case _ res1 tr1 rest1 heq1 =>
                obtain ⟨hres, htr, hrest⟩ := by simpa using h
                subst hres htr hrest
                obtain ⟨ihA, ihB, ihC, ihH, ihS⟩ := ih _ _ _ _ _ _ _ heq1
                refine ⟨ihA, ihB, ihC, ?_, ?_⟩
                · intro e hie
                  have he : (cur, W) = e := by simpa using hie
                  rw [← he]
                · intro j a b ha hb
                  cases j with
                  | zero =>
                    have ha0 : (cur, W) = a := by simpa using ha
                    have hb0 := ihH b (by simpa using hb)
                    rw [hb0, ← ha0]
                  | succ i =>
                    exact ihS i a b (by simpa using ha) (by simpa using hb)
            case isFalse hnone =>
              split at h
              · exact absurd h (by simp)
              case _ tbr tbtr rest1 heq2 =>
                obtain ⟨hres, htr, hrest⟩ := by simpa using h
                subst hres htr hrest
                have hndtb : ¬ tbDone (if fstb = "super" then 10 else 7) 0 0 := by
                  simp [tbDone]
                obtain ⟨tb1, tb2, tb3, tb4⟩ :=
                  simulate_tiebreak_aux_spec p1 p2 (if fstb = "super" then 10 else 7) ua
                    gfuel draws1 0 0 0 tbr tbtr rest1 heq2 hndtb
                refine ⟨by simp, ?_, ?_, ?_, ?_⟩
                · intro _
                  refine ⟨hnone, tbr.score, rfl, ?_⟩
                  rcases tb2 with ⟨hw, hT, hl⟩ | ⟨hw, hT, hl⟩
                  · refine Or.inl ⟨by simpa using hw, ?_, hT, by omega⟩
                    simp [hw, htie.1, htie.2]
                  · refine Or.inr ⟨by simpa using hw, ?_, hT, by omega⟩
                    simp [hw, htie.1, htie.2]
                · intro hn
                  exact absurd hn hnone
                · intro e hie
                  have he : (cur, W) = e := by simpa using hie
                  rw [← he]
                · intro j a b ha hb
                  cases j <;> simp at hb
          case isFalse htie =>
            split at h
            · exact absurd h (by simp)
            case _ res1 tr1 rest1 heq1 =>
              obtain ⟨hres, htr, hrest⟩ := by simpa using h
              subst hres htr hrest
              obtain ⟨ihA, ihB, ihC, ihH, ihS⟩ := ih _ _ _ _ _ _ _ heq1
              refine ⟨ihA, ihB, ihC, ?_, ?_⟩
              · intro e hie
                have he : (cur, W) = e := by simpa using hie
                rw [← he]
              · intro j a b ha hb
                cases j with
                | zero =>
                  have ha0 : (cur, W) = a := by simpa using ha
                  have hb0 := ihH b (by simpa using hb)
                  rw [hb0, ← ha0]
                | succ i =>
                  exact ihS i a b (by simpa using ha) (by simpa using hb)

/-- Claim C6: every set returned by simulate_set (policy one of "normal",
"super", "none") ends either (a) with a player on 6+ games and a lead of at
least two, tiebreak flag unset and no sub-score, or (b) with both players
on tiebreak_at games under policy "normal" or "super", a tiebreak to 7 or
10 points respectively decided by two clear points, its winner granted one
additional game, and the sub-score attached. Under policy "none" the tie at
tiebreak_at does not end the set: no tiebreak is ever recorded, the server
keeps alternating every game, one-game margins such as 7-6 or 8-7 are never
returned, while 7-5 and 8-6 are both reachable. -/
theorem C6_simulate_set_outcomes :
    (∀ p1 p2 first_server tb_at fstb ua gfuel sfuel draws res tr rest,
      (fstb = "normal" ∨ fstb = "super" ∨ fstb = "none") →
      simulate_set p1 p2 first_server tb_at fstb ua gfuel sfuel draws = .ok (res, tr, rest) →
      (res.tiebreak = false → res.tiebreak_score = none ∧
        ((res.winner = 1 ∧ 6 ≤ res.score.1 ∧ res.score.2 + 2 ≤ res.score.1) ∨
         (res.winner = 2 ∧ 6 ≤ res.score.2 ∧ res.score.1 + 2 ≤ res.score.2))) ∧
      (res.tiebreak = true → (fstb = "normal" ∨ fstb = "super") ∧
        ∃ ts, res.tiebreak_score = some ts ∧
          ((res.winner = 1 ∧ res.score = (tb_at + 1, tb_at) ∧
            (if fstb = "super" then 10 else 7) ≤ ts.1 ∧ ts.2 + 2 ≤ ts.1) ∨
           (res.winner = 2 ∧ res.score = (tb_at, tb_at + 1) ∧
            (if fstb = "super" then 10 else 7) ≤ ts.2 ∧ ts.1 + 2 ≤ ts.2))) ∧
      (fstb = "none" → res.tiebreak = false ∧ res.tiebreak_score = none ∧
        res.score ≠ (7, 6) ∧ res.score ≠ (8, 7)) ∧
      (∀ e, tr[0]? = some e → e.1 = first_server) ∧
      (∀ j a b, tr[j]? = some a → tr[j+1]? = some b → b.1 = otherPlayer a.1)) ∧
    (∃ res tr rest, simulate_set S0 S0 1 6 "none" (some false) 6 15 draws75 =
        .ok (res, tr, rest) ∧ res.score = (7, 5)) ∧
    (∃ res tr rest, simulate_set S0 S0 1 6 "none" (some false) 6 15 draws86 =
        .ok (res, tr, rest) ∧ res.score = (8, 6)) := by
  refine ⟨?_, ?_, ?_⟩
  · intro p1 p2 first_server tb_at fstb ua gfuel sfuel draws res tr rest hdom h
    obtain ⟨hA, hB, hC, hH, hS⟩ :=
      simulate_set_aux_spec p1 p2 tb_at fstb ua gfuel sfuel draws first_server 0 0 res tr rest h
    refine ⟨?_, ?_, ?_, hH, hS⟩
    · intro hf
      obtain ⟨hsc, hwin⟩ := hA hf
      refine ⟨hsc, ?_⟩
      rcases hwin with ⟨hw, h6, hl⟩ | ⟨hw, h6, hl⟩
      · exact Or.inl ⟨hw, h6, by omega⟩
      · exact Or.inr ⟨hw, h6, by omega⟩
    · intro ht
      obtain ⟨hne, ts, hts, hwin⟩ := hB ht
      refine ⟨?_, ts, hts, hwin⟩
      rcases hdom with h | h | h
      · exact Or.inl h
      · exact Or.inr h
      · exact absurd h hne
    · intro hn
      have hf := hC hn
      obtain ⟨hsc, hwin⟩ := hA hf
      refine ⟨hf, hsc, ?_, ?_⟩ <;>
      · intro hbad
        rcases hwin with ⟨hw, h6, hl⟩ | ⟨hw, h6, hl⟩ <;>
          rw [hbad] at h6 hl <;> simp at h6 hl <;> omega
  · refine ⟨⟨1, (7, 5), false, none⟩,
      [(1, true), (2, false), (1, true), (2, false), (1, true), (2, false), (1, true),
       (2, false), (1, true), (2, false), (1, true), (2, true)], [], ?_, rfl⟩
    norm_num [simulate_set, simulate_set_aux, simulate_game, simulate_game_aux,
      simulate_point, pyDiv, S0, draws75, gameW, gameL, otherPlayer, List.replicate]
  · refine ⟨⟨1, (8, 6), false, none⟩,
      [(1, true), (2, false), (1, true), (2, false), (1, true), (2, false), (1, true),
       (2, false), (1, true), (2, false), (1, true), (2, false), (1, true), (2, true)],
      [], ?_, rfl⟩
    norm_num [simulate_set, simulate_set_aux, simulate_game, simulate_game_aux,
      simulate_point, pyDiv, S0, draws86, gameW, gameL, otherPlayer, List.replicate]

/-- Witness for C6 on a concrete advantage set: the 7-5 run of draws75
satisfies the policy "none" conclusions (no tiebreak, no sub-score, not a
one-game margin). -/
theorem C6_simulate_set_outcomes_witness :
    (⟨1, (7, 5), false, none⟩ : SetResult).tiebreak = false ∧
    (⟨1, (7, 5), false, none⟩ : SetResult).tiebreak_score = none ∧
    (⟨1, (7, 5), false, none⟩ : SetResult).score ≠ (7, 6) ∧
    (⟨1, (7, 5), false, none⟩ : SetResult).score ≠ (8, 7) :=
  ((C6_simulate_set_outcomes.1 S0 S0 1 6 "none" (some false) 6 15 draws75
    ⟨1, (7, 5), false, none⟩
    [(1, true), (2, false), (1, true), (2, false), (1, true), (2, false), (1, true),
     (2, false), (1, true), (2, false), (1, true), (2, true)] []
    (Or.inr (Or.inr rfl))
    (by norm_num [simulate_set, simulate_set_aux, simulate_game, simulate_game_aux,
      simulate_point, pyDiv, S0, draws75, gameW, gameL, otherPlayer,
      List.replicate])).2.2.1) rfl

/-- Loop invariant of simulate_match_aux: starting from set counts both at
most sets_to_win and not both equal to it, a successful run returns a
winner holding exactly sets_to_win sets with the loser strictly below, and
the per-set trace obeys the policy-selection and server-carry rules. -/
theorem simulate_match_aux_spec (p1 p2 : PlayerStats) (bo : ℕ) (fstb : String)
    (ua : Option Bool) (sfuel gfuel : ℕ) :
    ∀ fuel draws p1s p2s cur acc res tr rest,
      simulate_match_aux p1 p2 bo fstb ua sfuel gfuel fuel draws p1s p2s cur acc =
        .ok (res, tr, rest) →
      p1s ≤ setsToWin bo → p2s ≤ setsToWin bo →
      ¬(p1s = setsToWin bo ∧ p2s = setsToWin bo) →
      ((res.winner = 1 ∧ res.score.1 = setsToWin bo ∧ res.score.2 < setsToWin bo) ∨
       (res.winner = 2 ∧ res.score.2 = setsToWin bo ∧ res.score.1 < setsToWin bo)) ∧
      matchTraceOk (setsToWin bo) fstb p1s p2s cur tr := by
  intro fuel
  induction fuel with
  | zero =>
    intro draws p1s p2s cur acc res tr rest h
    simp [simulate_match_aux] at h
  | succ m ih =>
    intro draws p1s p2s cur acc res tr rest h hle1 hle2 hne
    rw [simulate_match_aux] at h
    split at h
    case isTrue hcond =>
      simp only at h
      split at h
      · exact absurd h (by simp)
      case _ sr str draws1 heq =>
        by_cases hsw : sr.winner = 1
        · simp only [if_pos hsw] at h
          generalize hns : (if (sr.score.1 + sr.score.2) % 2 = 1
              then otherPlayer cur else cur) = ns at h
          split at h
          · exact absurd h (by simp)
          case _ res1 tr1 rest1 heq1 =>
            obtain ⟨hres, htr, hrest⟩ := by simpa using h
            subst hres htr hrest
            obtain ⟨ihW, ihT⟩ := ih _ _ _ _ _ _ _ _ heq1
              (by omega) (by omega) (by omega)
            refine ⟨ihW, ?_⟩
            simp only [matchTraceOk]
            refine ⟨trivial, trivial, ?_⟩
            simp only [if_pos hsw]
            rw [hns]
            exact ihT
        · simp only [if_neg hsw] at h
          generalize hns : (if (sr.score.1 + sr.score.2) % 2 = 1
              then otherPlayer cur else cur) = ns at h
          split at h
          · exact absurd h (by simp)
          case _ res1 tr1 rest1 heq1 =>
            obtain ⟨hres, htr, hrest⟩ := by simpa using h
            subst hres htr hrest
            obtain ⟨ihW, ihT⟩ := ih _ _ _ _ _ _ _ _ heq1
              (by omega) (by omega) (by omega)
            refine ⟨ihW, ?_⟩
            simp only [matchTraceOk]
            refine ⟨trivial, trivial, ?_⟩
            simp only [if_neg hsw]
            rw [hns]
            exact ihT
    case isFalse hcond =>
      obtain ⟨hres, htr, hrest⟩ := by simpa using h
      subst hres htr hrest
      refine ⟨?_, trivial⟩
      have hor : p1s = setsToWin bo ∨ p2s = setsToWin bo := by omega
      rcases hor with he | he
      · have hlt : p2s < p1s := by omega
        left
        refine ⟨by simp [hlt], ?_, ?_⟩
        · simpa using he
        · show p2s < setsToWin bo
          omega
      · by_cases he1 : p1s = setsToWin bo
        · exact absurd ⟨he1, he⟩ hne
        · have hlt : ¬ p2s < p1s := by omega
          right
          refine ⟨by simp [hlt], ?_, ?_⟩
          · simpa using he
          · show p1s < setsToWin bo
            omega

/-- Claim C7: for every match simulated by simulate_match, sets_to_win is
ceil(best_of / 2) (2 for best_of = 3, 3 for best_of = 5); the winner's set
count equals exactly sets_to_win and the loser's is strictly less; a set is
played with the caller-supplied final-set policy iff both players are
exactly one set away from winning, all others using "normal"; and the next
set's first server is flipped iff the completed set's total games is odd
(the rules packaged in matchTraceOk, threaded from the randomly chosen
first server). -/
theorem C7_simulate_match_spec (p1 p2 : PlayerStats) (bo : ℕ) (fstb : String)
    (ua : Option Bool) (mfuel sfuel gfuel : ℕ) (draws : List ℚ) (res : MatchResult)
    (tr : List (String × ℕ × SetResult)) (rest : List ℚ)
    (hbo : bo = 3 ∨ bo = 5)
    (h : simulate_match p1 p2 bo fstb ua mfuel sfuel gfuel draws = .ok (res, tr, rest)) :
    setsToWin bo = (bo + 1) / 2 ∧ setsToWin 3 = 2 ∧ setsToWin 5 = 3 ∧
    ((res.winner = 1 ∧ res.score.1 = setsToWin bo ∧ res.score.2 < setsToWin bo) ∨
     (res.winner = 2 ∧ res.score.2 = setsToWin bo ∧ res.score.1 < setsToWin bo)) ∧
    ∃ fs, (fs = 1 ∨ fs = 2) ∧ matchTraceOk (setsToWin bo) fstb 0 0 fs tr := by
  cases draws with
  | nil => simp [simulate_match] at h
  | cons u dr =>
    simp only [simulate_match] at h
    have hstw : 0 < setsToWin bo := by
      rcases hbo with rfl | rfl <;> norm_num [setsToWin]
    obtain ⟨hW, hT⟩ := simulate_match_aux_spec p1 p2 bo fstb ua sfuel gfuel mfuel dr 0 0
      (if u < 1/2 then 1 else 2) [] res tr rest h (by omega) (by omega) (by omega)
    refine ⟨rfl, by norm_num [setsToWin], by norm_num [setsToWin], hW,
      ⟨if u < 1/2 then 1 else 2, ?_, hT⟩⟩
    by_cases hu : u < 1/2
    · exact Or.inl (if_pos hu)
    · exact Or.inr (if_neg hu)

/-- Witness for C7 on a concrete best-of-3 match: a 6-0 6-0 win for player 1,
holding exactly sets_to_win = 2 sets against 0. -/
theorem C7_simulate_match_spec_witness :
    ((⟨1, (2, 0), [(6, 0), (6, 0)], scoreString [(6, 0), (6, 0)]⟩ : MatchResult).winner = 1 ∧
      (⟨1, (2, 0), [(6, 0), (6, 0)], scoreString [(6, 0), (6, 0)]⟩ : MatchResult).score.1 =
        setsToWin 3 ∧
      (⟨1, (2, 0), [(6, 0), (6, 0)], scoreString [(6, 0), (6, 0)]⟩ : MatchResult).score.2 <
        setsToWin 3) ∨
    ((⟨1, (2, 0), [(6, 0), (6, 0)], scoreString [(6, 0), (6, 0)]⟩ : MatchResult).winner = 2 ∧
      (⟨1, (2, 0), [(6, 0), (6, 0)], scoreString [(6, 0), (6, 0)]⟩ : MatchResult).score.2 =
        setsToWin 3 ∧
      (⟨1, (2, 0), [(6, 0), (6, 0)], scoreString [(6, 0), (6, 0)]⟩ : MatchResult).score.1 <
        setsToWin 3) :=
  (C7_simulate_match_spec S0 S0 3 "normal" (some false) 4 10 6 matchDraws
    ⟨1, (2, 0), [(6, 0), (6, 0)], scoreString [(6, 0), (6, 0)]⟩
    [("normal", 1, ⟨1, (6, 0), false, none⟩), ("normal", 1, ⟨1, (6, 0), false, none⟩)] []
    (Or.inl rfl)
    (by norm_num [simulate_match, simulate_match_aux, simulate_set, simulate_set_aux,
      simulate_game, simulate_game_aux, simulate_point, pyDiv, S0, matchDraws,
      setBlockWin1, gameW, gameL, otherPlayer, setsToWin, List.replicate])).2.2.2.1

/-- Claim C10: in every returned GameResult, winner equals 1 (the server)
iff the server's point count strictly exceeds the returner's (and winner is
0 otherwise); in every TiebreakResult, SetResult and MatchResult, winner is
1 iff the first score component is strictly larger and 2 iff the second is;
a set decided by a tiebreak scores the winner exactly one game above the
loser; and a tied score is never returned. -/
theorem C10_winner_score_consistency :
    (∀ ss rs ua fuel draws res ws rest,
      simulate_game ss rs ua fuel draws = .ok (res, ws, rest) →
      (res.winner = 1 ∨ res.winner = 0) ∧
      (res.winner = 1 ↔ res.score.2 < res.score.1)) ∧
    (∀ p1 p2 T ua fuel draws res tr rest,
      simulate_tiebreak p1 p2 T ua fuel draws = .ok (res, tr, rest) →
      (res.winner = 1 ∨ res.winner = 2) ∧
      (res.winner = 1 ↔ res.score.2 < res.score.1) ∧
      (res.winner = 2 ↔ res.score.1 < res.score.2)) ∧
    (∀ p1 p2 first_server tb_at fstb ua gfuel sfuel draws res tr rest,
      simulate_set p1 p2 first_server tb_at fstb ua gfuel sfuel draws = .ok (res, tr, rest) →
      (res.winner = 1 ∨ res.winner = 2) ∧
      (res.winner = 1 ↔ res.score.2 < res.score.1) ∧
      (res.winner = 2 ↔ res.score.1 < res.score.2) ∧
      res.score.1 ≠ res.score.2 ∧
      (res.tiebreak = true →
        (res.winner = 1 → res.score.1 = res.score.2 + 1) ∧
        (res.winner = 2 → res.score.2 = res.score.1 + 1))) ∧
    (∀ p1 p2 bo fstb ua mfuel sfuel gfuel draws res tr rest, 1 ≤ bo →
      simulate_match p1 p2 bo fstb ua mfuel sfuel gfuel draws = .ok (res, tr, rest) →
      (res.winner = 1 ∨ res.winner = 2) ∧
      (res.winner = 1 ↔ res.score.2 < res.score.1) ∧
      (res.winner = 2 ↔ res.score.1 < res.score.2)) := by
  refine ⟨?_, ?_, ?_, ?_⟩
  · intro ss rs ua fuel draws res ws rest h
    have hnd : ¬ gameDone 0 0 := by simp [gameDone]
    obtain ⟨-, h2, -⟩ := simulate_game_aux_spec ss rs ua fuel draws 0 0 res ws rest h hnd
    rcases h2 with ⟨hw, h4, hl⟩ | ⟨hw, h4, hl⟩
    · exact ⟨Or.inl hw, ⟨fun _ => by omega, fun _ => hw⟩⟩
    · exact ⟨Or.inr hw, ⟨fun h1 => by omega, fun hlt => by omega⟩⟩
  · intro p1 p2 T ua fuel draws res tr rest h
    have hnd : ¬ tbDone T 0 0 := by simp [tbDone]
    obtain ⟨-, h2, -, -⟩ :=
      simulate_tiebreak_aux_spec p1 p2 T ua fuel draws 0 0 0 res tr rest h hnd
    rcases h2 with ⟨hw, hT, hl⟩ | ⟨hw, hT, hl⟩
    · exact ⟨Or.inl hw, ⟨fun _ => by omega, fun _ => hw⟩,
        ⟨fun h2 => by omega, fun hlt => by omega⟩⟩
    · exact ⟨Or.inr hw, ⟨fun h1 => by omega, fun hlt => by omega⟩,
        ⟨fun _ => by omega, fun _ => hw⟩⟩
  · intro p1 p2 first_server tb_at fstb ua gfuel sfuel draws res tr rest h
    obtain ⟨hA, hB, -, -, -⟩ :=
      simulate_set_aux_spec p1 p2 tb_at fstb ua gfuel sfuel draws first_server 0 0
        res tr rest h
    cases htb : res.tiebreak
    · obtain ⟨hsc, hwin⟩ := hA htb
      rcases hwin with ⟨hw, h6, hl⟩ | ⟨hw, h6, hl⟩
      · exact ⟨Or.inl hw, ⟨fun _ => by omega, fun _ => hw⟩,
          ⟨fun h2 => by omega, fun hlt => by omega⟩, by omega,
          fun htb1 => by simp [htb] at htb1⟩
      · exact ⟨Or.inr hw, ⟨fun h1 => by omega, fun hlt => by omega⟩,
          ⟨fun _ => by omega, fun _ => hw⟩, by omega,
          fun htb1 => by simp [htb] at htb1⟩
    · obtain ⟨hne, ts, hts, hwin⟩ := hB htb
      rcases hwin with ⟨hw, hsc, -, -⟩ | ⟨hw, hsc, -, -⟩
      · have h1 : res.score.1 = tb_at + 1 := by rw [hsc]
        have h2 : res.score.2 = tb_at := by rw [hsc]
        exact ⟨Or.inl hw, ⟨fun _ => by omega, fun _ => hw⟩,
          ⟨fun hw2 => by omega, fun hlt => by omega⟩, by omega,
          fun _ => ⟨fun _ => by omega, fun hw2 => by omega⟩⟩
      · have h1 : res.score.1 = tb_at := by rw [hsc]
        have h2 : res.score.2 = tb_at + 1 := by rw [hsc]
        exact ⟨Or.inr hw, ⟨fun hw1 => by omega, fun hlt => by omega⟩,
          ⟨fun _ => by omega, fun _ => hw⟩, by omega,
          fun _ => ⟨fun hw1 => by omega, fun _ => by omega⟩⟩
  · intro p1 p2 bo fstb ua mfuel sfuel gfuel draws res tr rest hbo h
    cases draws with
    | nil => simp [simulate_match] at h
    | cons u dr =>
      simp only [simulate_match] at h
      have hstw : 0 < setsToWin bo := by
        simp only [setsToWin]
        omega
      obtain ⟨hW, -⟩ := simulate_match_aux_spec p1 p2 bo fstb ua sfuel gfuel mfuel dr 0 0
        (if u < 1/2 then 1 else 2) [] res tr rest h (by omega) (by omega) (by omega)
      rcases hW with ⟨hw, he, hl⟩ | ⟨hw, he, hl⟩
      · exact ⟨Or.inl hw, ⟨fun _ => by omega, fun _ => hw⟩,
          ⟨fun h2 => by omega, fun hlt => by omega⟩⟩
      · exact ⟨Or.inr hw, ⟨fun h1 => by omega, fun hlt => by omega⟩,
          ⟨fun _ => by omega, fun _ => hw⟩⟩

/-- Witness for C10 on concrete runs of all four simulators: a 4-0 game, a
7-0 tiebreak, a 7-5 set and a 2-0 match, each with winner 1 and a strictly
larger first score component. -/
theorem C10_winner_score_consistency_witness :
    ((⟨1, (4, 0)⟩ : GameResult).winner = 1 ↔
      (⟨1, (4, 0)⟩ : GameResult).score.2 < (⟨1, (4, 0)⟩ : GameResult).score.1) ∧
    ((⟨1, (7, 0)⟩ : TiebreakResult).winner = 1 ↔
      (⟨1, (7, 0)⟩ : TiebreakResult).score.2 < (⟨1, (7, 0)⟩ : TiebreakResult).score.1) ∧
    ((⟨1, (7, 5), false, none⟩ : SetResult).winner = 1 ↔
      (⟨1, (7, 5), false, none⟩ : SetResult).score.2 <
        (⟨1, (7, 5), false, none⟩ : SetResult).score.1) ∧
    ((⟨1, (2, 0), [(6, 0), (6, 0)], scoreString [(6, 0), (6, 0)]⟩ : MatchResult).winner = 1 ↔
      (⟨1, (2, 0), [(6, 0), (6, 0)], scoreString [(6, 0), (6, 0)]⟩ : MatchResult).score.2 <
        (⟨1, (2, 0), [(6, 0), (6, 0)], scoreString [(6, 0), (6, 0)]⟩ : MatchResult).score.1) :=
  ⟨(C10_winner_score_consistency.1 S0 none (some false) 5 gameW ⟨1, (4, 0)⟩
      [true, true, true, true] []
      (by norm_num [simulate_game, simulate_game_aux, simulate_point, pyDiv, S0,
        gameW])).2,
   (C10_winner_score_consistency.2.1 S0 S0 7 (some false) 8
      ([0, 0, 0, 0, 0, 0, 3/4, 0, 3/4, 0, 0, 0, 0, 0] : List ℚ) ⟨1, (7, 0)⟩
      [(true, true), (true, true), (true, true), (false, true), (false, true),
       (true, true), (true, true)] []
      (by norm_num [simulate_tiebreak, simulate_tiebreak_aux, simulate_point, pyDiv, S0,
        tbServerIsP1])).2.1,
   (C10_winner_score_consistency.2.2.1 S0 S0 1 6 "none" (some false) 6 15 draws75
      ⟨1, (7, 5), false, none⟩
      [(1, true), (2, false), (1, true), (2, false), (1, true), (2, false), (1, true),
       (2, false), (1, true), (2, false), (1, true), (2, true)] []
      (by norm_num [simulate_set, simulate_set_aux, simulate_game, simulate_game_aux,
        simulate_point, pyDiv, S0, draws75, gameW, gameL, otherPlayer,
        List.replicate])).2.1,
   (C10_winner_score_consistency.2.2.2 S0 S0 3 "normal" (some false) 4 10 6 matchDraws
      ⟨1, (2, 0), [(6, 0), (6, 0)], scoreString [(6, 0), (6, 0)]⟩
      [("normal", 1, ⟨1, (6, 0), false, none⟩), ("normal", 1, ⟨1, (6, 0), false, none⟩)] []
      (by norm_num)
      (by norm_num [simulate_match, simulate_match_aux, simulate_set, simulate_set_aux,
        simulate_game, simulate_game_aux, simulate_point, pyDiv, S0, matchDraws,
        setBlockWin1, gameW, gameL, otherPlayer, setsToWin, List.replicate])).2.1⟩

/-- Claim C1: under the spec precondition 0 < first_in_pct < 1, the code's
simulate_point resolves the point exactly by the documented algorithm
(simulate_point_spec): first-serve draw, conditional ace and double-fault
rates, opponent adjustment clamped to [0.30, 0.95] on first serve and
[0.20, 0.85] on second serve exactly when enabled and the returner's rate
is present, global-flag fallback when use_adjustment is unset. -/
theorem C1_simulate_point_follows_spec (ss : PlayerStats) (rs : Option PlayerStats)
    (ua : Option Bool) (draws : List ℚ)
    (h0 : 0 < ss.first_in_pct) (h1 : ss.first_in_pct < 1) :
    simulate_point ss rs ua draws = simulate_point_spec ss rs ua draws := by
  have hne : ss.first_in_pct ≠ 0 := ne_of_gt h0
  have hne1 : (1 : ℚ) - ss.first_in_pct ≠ 0 := sub_ne_zero.mpr (ne_of_gt h1)
  simp only [simulate_point, simulate_point_spec, pyDiv, if_neg hne, if_neg hne1]

/-- Witness for C1 on the repository's test-case statistics: both point
algorithms agree on a concrete draw sequence. -/
theorem C1_simulate_point_follows_spec_witness :
    simulate_point S1 (some S2) none ([1/10, 1/100, 1/2] : List ℚ) =
      simulate_point_spec S1 (some S2) none ([1/10, 1/100, 1/2] : List ℚ) :=
  C1_simulate_point_follows_spec S1 (some S2) none ([1/10, 1/100, 1/2] : List ℚ)
    (by norm_num [S1]) (by norm_num [S1])

/-- Claim C2 (amended): simulate_point performs no validation at all. For
any statistics record, however invalid, and any draws from [0, 1), the call
either returns an ordinary outcome or merely exhausts the modelled draw
stream; in particular no division-by-zero error is ever raised, even when
first_in_pct is 0 or 1, because the branch performing the offending
division is not reachable for draws in [0, 1). -/
theorem C2_simulate_point_never_fails (ss : PlayerStats) (rs : Option PlayerStats)
    (ua : Option Bool) (draws : List ℚ)
    (hd : ∀ u ∈ draws, 0 ≤ u ∧ u < 1) :
    (∃ x, simulate_point ss rs ua draws = .ok x) ∨
    simulate_point ss rs ua draws = .error "draws exhausted" := by
  unfold simulate_point
  cases draws with
  | nil => exact Or.inr rfl
  | cons u dr =>
    obtain ⟨hu0, hu1⟩ := hd u (by simp)
    simp only
    by_cases hin : u < ss.first_in_pct
    · have hne : ss.first_in_pct ≠ 0 := by
        intro hz
        rw [hz] at hin
        exact absurd hin (not_lt.mpr hu0)
      simp only [if_pos hin, pyDiv, if_neg hne]
      cases dr with
      | nil => exact Or.inr rfl
      | cons v ddr =>
        by_cases hv : v < ss.ace_pct / ss.first_in_pct
        · simp only [if_pos hv]
          exact Or.inl ⟨_, rfl⟩
        · simp only [if_neg hv]
          cases ddr with
          | nil => exact Or.inr rfl
          | cons w dddr => exact Or.inl ⟨_, rfl⟩
    · have hne : (1 : ℚ) - ss.first_in_pct ≠ 0 := by
        intro hz
        have : ss.first_in_pct = 1 := by linarith [sub_eq_zero.mp hz]
        rw [this] at hin
        exact absurd hu1 hin
      simp only [if_neg hin, pyDiv, if_neg hne]
      cases dr with
      | nil => exact Or.inr rfl
      | cons v ddr =>
        by_cases hv : v < ss.df_pct / (1 - ss.first_in_pct)
        · simp only [if_pos hv]
          exact Or.inl ⟨_, rfl⟩
        · simp only [if_neg hv]
          cases ddr with
          | nil => exact Or.inr rfl
          | cons w dddr => exact Or.inl ⟨_, rfl⟩

/-- Witness for C2 (amended) on a concrete run with draws in [0, 1). -/
theorem C2_simulate_point_never_fails_witness :
    (∃ x, simulate_point ⟨0, 1/2, 1/2, 1/2, 1/2, none, none⟩ none (some false)
        ([0, 0, 1/2] : List ℚ) = .ok x) ∨
    simulate_point ⟨0, 1/2, 1/2, 1/2, 1/2, none, none⟩ none (some false)
        ([0, 0, 1/2] : List ℚ) = .error "draws exhausted" :=
  C2_simulate_point_never_fails ⟨0, 1/2, 1/2, 1/2, 1/2, none, none⟩ none (some false)
    ([0, 0, 1/2] : List ℚ) (by norm_num)

/-- Counterexample to claim C2 as stated: on invalid statistics (an ace rate
of 1/2 exceeding the serve-in rate of 1/4, so the conditional ace
probability is 2 > 1) the simulator does not fail fast with any error: it
silently resolves the point as an ace. -/
theorem C2_counterexample :
    ((1 : ℚ)/4 < 1/2) ∧
    simulate_point ⟨1/4, 1/2, 1/2, 1/2, 1/2, none, none⟩ none (some false)
        ([0, 0] : List ℚ) = .ok (⟨1, "ace", "first"⟩, []) :=
  ⟨by norm_num, by norm_num [simulate_point, pyDiv]⟩

/-- Claim C3 (amended): for n_trials = 0 the call does fail, but not with a
rejection issued before the trial loop: the loop body simply never runs
(run_trials at 0 returns its accumulator untouched and consumes no draws),
and the failure is the ZeroDivisionError raised at the win-probability
division p1_wins / n_sims after the loop. -/
theorem C3_estimate_zero_trials (z : ℝ) (seedStream : ℤ → List ℚ) (rngState : List ℚ)
    (p1 p2 : PlayerStats) (bo : ℕ) (fstb : String) (ua : Option Bool) (seed : Option ℤ)
    (mfuel sfuel gfuel : ℕ) :
    estimate_win_probability z seedStream rngState p1 p2 0 bo fstb ua seed
        mfuel sfuel gfuel = .error "division by zero" ∧
    (∀ draws wins,
      run_trials p1 p2 bo fstb ua mfuel sfuel gfuel 0 draws wins = .ok (wins, draws)) := by
  constructor
  · cases seed with
    | none =>
      simp [estimate_win_probability, estimate_core, run_trials, pyDiv]
    | some s =>
      simp [estimate_win_probability, estimate_core, run_trials, pyDiv]
  · intro draws wins
    rfl

/-- Counterexample to claim C3 as stated: with n_trials = 0 the failure is
not an error raised before the trial loop; the loop returns normally with
zero iterations, and the division by zero is reached and is precisely the
reported error. -/
theorem C3_counterexample :
    run_trials S0 S0 3 "normal" (some false) 1 1 1 0 [] 0 = .ok (0, []) ∧
    estimate_win_probability 2 (fun _ => []) [] S0 S0 0 3 "normal" (some false) (some 0)
        1 1 1 = .error "division by zero" :=
  ⟨rfl, by simp [estimate_win_probability, estimate_core, run_trials, pyDiv]⟩

/-- Claim C8: with a supplied seed, estimate_win_probability is a pure
function of the seed and the inputs: the prior state of the random source
is discarded by the re-seeding, so two calls with the same seed and the
same inputs return identical EstimationResult values, whatever random
state each call starts from. -/
theorem C8_estimate_seeded_deterministic (z : ℝ) (seedStream : ℤ → List ℚ)
    (st1 st2 : List ℚ) (p1 p2 : PlayerStats) (n bo : ℕ) (fstb : String) (ua : Option Bool)
    (s : ℤ) (mfuel sfuel gfuel : ℕ) :
    estimate_win_probability z seedStream st1 p1 p2 n bo fstb ua (some s)
        mfuel sfuel gfuel =
    estimate_win_probability z seedStream st2 p1 p2 n bo fstb ua (some s)
        mfuel sfuel gfuel := rfl

/-- The trial loop only ever increments its accumulator: a successful run
of n trials adds between 0 and n wins. -/
theorem run_trials_wins_bound (p1 p2 : PlayerStats) (bo : ℕ) (fstb : String)
    (ua : Option Bool) (mfuel sfuel gfuel : ℕ) :
    ∀ n draws wins wins1 rest,
      run_trials p1 p2 bo fstb ua mfuel sfuel gfuel n draws wins = .ok (wins1, rest) →
      wins ≤ wins1 ∧ wins1 ≤ wins + n := by
  intro n
  induction n with
  | zero =>
    intro draws wins wins1 rest h
    have h1 : wins = wins1 ∧ draws = rest := by simpa [run_trials] using h
    omega
  | succ m ih =>
    intro draws wins wins1 rest h
    rw [run_trials] at h
    split at h
    · exact absurd h (by simp)
    case _ res tr rest0 heq =>
      by_cases hw : res.winner = 1
      · simp only [if_pos hw] at h
        have hb := ih _ _ _ _ h
        omega
      · simp only [if_neg hw] at h
        have hb := ih _ _ _ _ h
        omega

/-- The Wilson bounds of lines 449-454 in closed form at the extreme
proportions p = 0 and p = 1 with a single trial. -/
theorem wilson_ci_single_trial_values (z : ℝ) (hz : 0 ≤ z) :
    wilson_ci_lower z 0 1 = 0 ∧ wilson_ci_upper z 0 1 = z^2 / (1 + z^2) ∧
    wilson_ci_lower z 1 1 = 1 / (1 + z^2) ∧ wilson_ci_upper z 1 1 = 1 := by
  have h4 : Real.sqrt 4 = 2 := by
    rw [show (4:ℝ) = 2^2 by norm_num]
    exact Real.sqrt_sq (by norm_num)
  have hne : (1:ℝ) + z^2 ≠ 0 := by positivity
  refine ⟨?_, ?_, ?_, ?_⟩
  · unfold wilson_ci_lower
    norm_num
    left
    rw [Real.sqrt_sq hz, h4]
    ring
  · unfold wilson_ci_upper
    norm_num
    rw [Real.sqrt_sq hz, h4]
    field_simp
    ring
  · unfold wilson_ci_lower
    norm_num
    rw [Real.sqrt_sq hz, h4]
    field_simp
    ring_nf
    exact Or.inl trivial
  · unfold wilson_ci_upper
    norm_num
    rw [Real.sqrt_sq hz, h4]
    field_simp
    ring

/-- At the extreme proportions of a single trial, both Wilson bounds lie
within [0, 1]. -/
theorem wilson_ci_single_trial_extremes (z : ℝ) (hz : 0 ≤ z) (p : ℚ)
    (hp : p = 0 ∨ p = 1) :
    0 ≤ wilson_ci_lower z p 1 ∧ wilson_ci_lower z p 1 ≤ 1 ∧
    0 ≤ wilson_ci_upper z p 1 ∧ wilson_ci_upper z p 1 ≤ 1 := by
  obtain ⟨hl0, hu0, hl1, hu1⟩ := wilson_ci_single_trial_values z hz
  have hpos : (0:ℝ) < 1 + z^2 := by positivity
  rcases hp with rfl | rfl
  · refine ⟨by rw [hl0], by rw [hl0]; norm_num, by rw [hu0]; positivity, ?_⟩
    rw [hu0]
    rw [div_le_one hpos]
    nlinarith [sq_nonneg z]
  · refine ⟨by rw [hl1]; positivity, ?_, ?_, by rw [hu1]⟩
    · rw [hl1]
      rw [div_le_one hpos]
      nlinarith [sq_nonneg z]
    · rw [hu1]
      nlinarith [sq_nonneg z]

/-- Claim C9: a single-trial estimate returns a win probability of exactly
0 or exactly 1, the confidence bounds are computed by the documented Wilson
formula at that proportion, and (for a nonnegative normal quantile z, as
the 97.5th-percentile quantile is) both bounds lie within [0, 1] even at
these extremes. -/
theorem C9_estimate_single_trial (z : ℝ) (seedStream : ℤ → List ℚ) (rngState : List ℚ)
    (p1 p2 : PlayerStats) (bo : ℕ) (fstb : String) (ua : Option Bool) (seed : Option ℤ)
    (mfuel sfuel gfuel : ℕ) (r : EstimationResult) (rest : List ℚ)
    (hz : 0 ≤ z)
    (h : estimate_win_probability z seedStream rngState p1 p2 1 bo fstb ua seed
        mfuel sfuel gfuel = .ok (r, rest)) :
    (r.p1_win_prob = 0 ∨ r.p1_win_prob = 1) ∧
    r.ci_lower = wilson_ci_lower z r.p1_win_prob 1 ∧
    r.ci_upper = wilson_ci_upper z r.p1_win_prob 1 ∧
    0 ≤ r.ci_lower ∧ r.ci_lower ≤ 1 ∧ 0 ≤ r.ci_upper ∧ r.ci_upper ≤ 1 := by
  simp only [estimate_win_probability] at h
  split at h
  · exact absurd h (by simp)
  case _ wins p rest0 heqc =>
    obtain ⟨hr, hrest⟩ := by simpa using h
    rw [estimate_core] at heqc
    split at heqc
    · exact absurd heqc (by simp)
    case _ wins1 rest1 heqt =>
      have hone : ((1:ℕ) : ℚ) ≠ 0 := by norm_num
      simp only [pyDiv, if_neg hone] at heqc
      obtain ⟨hw, hp, hr0⟩ := by simpa using heqc
      have hb := run_trials_wins_bound p1 p2 bo fstb ua mfuel sfuel gfuel 1 _ 0 wins1 rest1 heqt
      have hwv : wins1 = 0 ∨ wins1 = 1 := by omega
      have hpv : p = 0 ∨ p = 1 := by
        rcases hwv with hv | hv <;> rw [← hp, hv] <;> norm_num
      subst hr
      obtain ⟨e1, e2, e3, e4⟩ := wilson_ci_single_trial_extremes z hz p hpv
      exact ⟨hpv, rfl, rfl, e1, e2, e3, e4⟩

/-- Witness for C9 on a concrete single-trial run (player 1 wins a best-of-1
match 6-0, so the estimate is exactly 1 and the lower Wilson bound is
nonnegative). -/
theorem C9_estimate_single_trial_witness :
    0 ≤ (⟨1, 0, wilson_ci_lower 2 1 1, wilson_ci_upper 2 1 1, 1⟩ : EstimationResult).ci_lower :=
  (C9_estimate_single_trial 2 (fun _ => []) estDraws S0 S0 1 "normal" (some false) none
    4 10 6 ⟨1, 0, wilson_ci_lower 2 1 1, wilson_ci_upper 2 1 1, 1⟩ []
    (by norm_num)
    (by norm_num [estimate_win_probability, estimate_core, run_trials, pyDiv,
      simulate_match, simulate_match_aux, simulate_set, simulate_set_aux,
      simulate_game, simulate_game_aux, simulate_point, S0, estDraws,
      setBlockWin1, gameW, gameL, otherPlayer, setsToWin, List.replicate])).2.2.2.1
